import Mathlib

/-!
Shallow embedding of the Subdomain Enumeration Tool
(src/Subdomain_Enumeration_Tool.py) and proofs about its
specification claims.

The repository is a Streamlit dashboard around four pure-ish helpers
(get_subdomains_crtsh, get_subdomains_sublister, brute_force_subdomains,
save_results_file) and one scheduling block run when the scan button is
pressed.  External effects (HTTP, DNS, the filesystem, subprocesses) are
modelled as explicit oracle parameters; everything else is translated
directly from the source.
-/

namespace SubdomainTool

/-! ## Python string helpers -/

/-- Python `str.isspace` over the ASCII whitespace characters that
`str.strip()` removes. -/
def pyIsSpace (c : Char) : Bool :=
  c = ' ' || c = '\t' || c = '\n' || c = '\r' || c = '\x0b' || c = '\x0c'

/-- Python `s.strip()`: drop leading and trailing whitespace. -/
def pyStrip (s : String) : String :=
  String.mk (((s.data.dropWhile pyIsSpace).reverse.dropWhile pyIsSpace).reverse)

/-- Split a character list at every occurrence of `sep`; `acc` holds the
current piece reversed.  Mirrors Python `s.split(sep)` for a one-character
separator. -/
def splitCharAux (sep : Char) (acc : List Char) : List Char → List String
  | [] => [String.mk acc.reverse]
  | c :: rest =>
    if c = sep then String.mk acc.reverse :: splitCharAux sep [] rest
    else splitCharAux sep (c :: acc) rest

/-- Python `s.split(sep)` for a one-character separator. -/
def pySplit (sep : Char) (s : String) : List String :=
  splitCharAux sep [] s.data

/-- Python `s.splitlines()` restricted to the `\n` terminator: like
`split("\n")` but an empty string gives no lines and a trailing newline
adds no empty final line. -/
def pySplitlines (s : String) : List String :=
  if s.data = [] then []
  else if s.data.getLast? = some '\n' then (pySplit '\n' s).dropLast
  else pySplit '\n' s

/-! ## Certificate-transparency probe (get_subdomains_crtsh, lines 42-60)

The outcome of `requests.get` / `r.json()` is an oracle: either the call
raised, or it produced a status code together with a parsed JSON body
(`none` models a `r.json()` parse failure; each entry is its optional
`name_value` field, `entry.get("name_value", "")` supplying `""`). -/

inductive CtFetch where
  | fail
  | resp (status : Nat) (body : Option (List (Option String)))

/-- Body of the inner loop of `get_subdomains_crtsh`: strip one split
piece and add it to the set when non-blank. -/
def crtshAddName (rs : Finset String) (n : String) : Finset String :=
  let t := pyStrip n
  if t = "" then rs else insert t rs

/-- Body of the outer loop of `get_subdomains_crtsh`: split the
`name_value` of one entry on newlines and add every non-blank stripped
piece. -/
def crtshAddEntry (results : Finset String) (entry : Option String) :
    Finset String :=
  (pySplit '\n' (entry.getD "")).foldl crtshAddName results

/-- The set-building loops of `get_subdomains_crtsh`:
for each entry, split `name_value` on newlines, strip, add non-blank. -/
def crtshNames (entries : List (Option String)) : Finset String :=
  entries.foldl crtshAddEntry ∅

/-- `get_subdomains_crtsh` (lines 42-60).  Returns the set of hostnames
the Python function returns as `list(results)`; every failure path
returns the empty set. -/
def get_subdomains_crtsh (f : CtFetch) : Finset String :=
  match f with
  | CtFetch.fail => ∅
  | CtFetch.resp status body =>
    if status ≠ 200 then ∅
    else
      match body with
      | none => ∅
      | some entries => crtshNames entries

/-- A fetch outcome on which the try/except or the status check fires:
the request raised, the response was non-200, or the JSON parse failed. -/
def ctFailed (f : CtFetch) : Prop :=
  match f with
  | CtFetch.fail => True
  | CtFetch.resp status body => status ≠ 200 ∨ body = none

/-! ## External-tool probe (get_subdomains_sublister, lines 62-77) -/

/-- Environment for `get_subdomains_sublister`: whether
`Sublist3r/sublist3r.py` exists, the outcome of `subprocess.run`
(`none` models a raised exception such as a timeout, `some stdout`
a completed run), and the contents of `subdomains.txt` if that file
exists after the run. -/
structure SublisterEnv where
  scriptExists : Bool
  runResult : Option String
  outputFile : Option (List String)

/-- Result of the external-tool probe together with whether a
subprocess was spawned at all. -/
structure SublisterOut where
  result : List String
  spawned : Bool
deriving DecidableEq

/-- `get_subdomains_sublister` (lines 62-77). -/
def get_subdomains_sublister (env : SublisterEnv) : SublisterOut :=
  if env.scriptExists = false then ⟨[], false⟩
  else
    match env.runResult with
    | none => ⟨[], true⟩
    | some stdout =>
      match env.outputFile with
      | some lines =>
        ⟨lines.filterMap (fun l =>
          let t := pyStrip l
          if t = "" then none else some t), true⟩
      | none =>
        ⟨(pySplitlines stdout).filterMap (fun l =>
          let t := pyStrip l
          if t = "" then none else some t), true⟩

/-! ## Brute-force probe (brute_force_subdomains, lines 79-98) -/

/-- Outcome of `open(wordlist, "r")` plus the line iteration:
the file read fine and yielded these lines, it was missing
(`FileNotFoundError`, the only exception the function catches), or
opening/reading raised some other exception (e.g. `PermissionError`),
which the function does not catch. -/
inductive ReadOutcome where
  | ok (lines : List String)
  | notFound
  | otherError (e : String)

/-- The resolution loop of `brute_force_subdomains`: strip each line,
skip blanks, resolve `sub.domain`, append on success, swallow every
resolver exception (`except Exception: pass`).  `resolve full = true`
models `resolver.resolve(full, "A", lifetime=3)` succeeding;
`false` models it raising (NXDOMAIN, timeout, SERVFAIL, anything). -/
def bruteStep (domain : String) (resolve : String → Bool)
    (found : List String) (line : String) : List String :=
  let sub := pyStrip line
  if sub = "" then found
  else
    if resolve (sub ++ "." ++ domain) then found ++ [sub ++ "." ++ domain]
    else found

/-- The whole wordlist loop of `brute_force_subdomains`. -/
def bruteSweep (domain : String) (lines : List String) (resolve : String → Bool) :
    List String :=
  lines.foldl (bruteStep domain resolve) []

/-- `brute_force_subdomains` (lines 79-98).  A missing wordlist is
caught (`except FileNotFoundError: pass` -- no message is emitted,
only a comment says the UI will show one) and the empty `found` list
is returned; any other read error propagates to the caller. -/
def brute_force_subdomains (domain : String) (wordlist : ReadOutcome)
    (resolve : String → Bool) : Except String (List String) :=
  match wordlist with
  | ReadOutcome.ok lines => Except.ok (bruteSweep domain lines resolve)
  | ReadOutcome.notFound => Except.ok []
  | ReadOutcome.otherError e => Except.error e

/-! ## Result export (save_results_file, lines 100-107) -/

/-- Does the csv writer (pandas `to_csv`, QUOTE_MINIMAL) have to quote
this field: it contains the delimiter, the quote char, or a line
terminator character. -/
def csvNeedsQuote (s : String) : Bool :=
  s.data.any (fun c => c = ',' || c = '"' || c = '\n' || c = '\r')

/-- Double every quote character, as the csv writer does inside a
quoted field. -/
def csvEscapeQuotes : List Char → List Char
  | [] => []
  | c :: rest =>
    if c = '"' then '"' :: '"' :: csvEscapeQuotes rest
    else c :: csvEscapeQuotes rest

/-- One csv field as pandas `to_csv` writes it with minimal quoting. -/
def csvField (s : String) : String :=
  if csvNeedsQuote s then String.mk ('"' :: (csvEscapeQuotes s.data ++ ['"']))
  else s

/-- The data rows of the csv file: one field plus newline per hostname. -/
def csvBody : List String → String
  | [] => ""
  | h :: t => csvField h ++ "\n" ++ csvBody t

/-- The full text `df.to_csv(fname, index=False)` writes for the
single-column frame `pd.DataFrame(.Subdomain.)`: the header line
`Subdomain` followed by one row per hostname. -/
def to_csv (hostnames : List String) : String :=
  "Subdomain" ++ "\n" ++ csvBody hostnames

/-- JSON string escaping for the `to_json` branch (common escapes). -/
def jsonEscapeChar (c : Char) : String :=
  if c = '"' then "\\\""
  else if c = '\\' then "\\\\"
  else if c = '\n' then "\\n"
  else if c = '\r' then "\\r"
  else if c = '\t' then "\\t"
  else String.singleton c

/-- The text `df.to_json(fname, orient="records")` writes: a JSON array
of one-key objects. -/
def to_json (hostnames : List String) : String :=
  "[" ++ String.intercalate ","
    (hostnames.map (fun h =>
      "\x7b\"Subdomain\":\"" ++ String.join (h.data.map jsonEscapeChar) ++ "\"\x7d"))
    ++ "]"

/-- `save_results_file` (lines 100-107): the name of the written file
and its contents, for the listed hostname set `list(subdomains)`. -/
def save_results_file (subdomains : List String) (fmt : String) :
    String × String :=
  let fname := "subdomains_found." ++ fmt
  if fmt = "csv" then (fname, to_csv subdomains)
  else (fname, to_json subdomains)

/-! ## A csv reader, for the round-trip claim.

Modelled from the spec: the repository only writes the export file
("Export round-trip: writing the Result Set to CSV then reading it back
yields the identical set of hostnames"); reading it back is not code of
the repository, so a standard single-column csv reader is modelled here:
a character-level state machine handling quoted fields with doubled
quotes. -/

/-- Reader states: at the start of a field, inside an unquoted field,
inside a quoted field, just after a quote inside a quoted field. -/
inductive CsvSt where
  | start
  | unq
  | inq
  | afterq
deriving DecidableEq

/-- Modelled from the spec: character-level scan of a single-column csv
text into its records.  `acc` holds the current field reversed. -/
def csvScan (st : CsvSt) (acc : List Char) : List Char → List String
  | [] => if st = CsvSt.start then [] else [String.mk acc.reverse]
  | c :: rest =>
    match st with
    | CsvSt.start =>
      if c = '"' then csvScan CsvSt.inq acc rest
      else if c = '\n' then String.mk acc.reverse :: csvScan CsvSt.start [] rest
      else csvScan CsvSt.unq (c :: acc) rest
    | CsvSt.unq =>
      if c = '\n' then String.mk acc.reverse :: csvScan CsvSt.start [] rest
      else csvScan CsvSt.unq (c :: acc) rest
    | CsvSt.inq =>
      if c = '"' then csvScan CsvSt.afterq acc rest
      else csvScan CsvSt.inq (c :: acc) rest
    | CsvSt.afterq =>
      if c = '"' then csvScan CsvSt.inq ('"' :: acc) rest
      else if c = '\n' then String.mk acc.reverse :: csvScan CsvSt.start [] rest
      else csvScan CsvSt.unq (c :: acc) rest

/-- Modelled from the spec: read a written csv export back, dropping the
header record. -/
def read_csv (content : String) : List String :=
  (csvScan CsvSt.start [] content.data).tail

/-! ## The enumeration engine (run_button scan block, lines 166-227)

The log is modelled structurally: `LogMsg` is the message passed to
`log(msg)` (lines 117-119); `renderLog` maps it to the exact timestamped
string the Python code appends. -/

/-- The messages the scan block passes to `log`. -/
inductive LogMsg where
  | started
  | completed
  | taskError (kind : String) (domain : String) (err : String)
  | taskNew (kind : String) (domain : String) (n : Nat)
  | taskZero (kind : String) (domain : String)
deriving DecidableEq

/-- The exact string `log` appends for a message, given the
`datetime.utcnow()` timestamp text. -/
def renderLog (timestamp : String) (m : LogMsg) : String :=
  "[" ++ timestamp ++ " UTC] " ++
    (match m with
     | LogMsg.started => "Scan started"
     | LogMsg.completed => "Scan completed"
     | LogMsg.taskError k d e => "ERROR " ++ k ++ " " ++ d ++ ": " ++ e
     | LogMsg.taskNew k d n =>
       "[" ++ k ++ "] " ++ d ++ " -> " ++ toString n ++ " new subdomains"
     | LogMsg.taskZero k d => "[" ++ k ++ "] " ++ d ++ " -> 0")

/-- The sidebar inputs the scan block reads: the processed domain list
(line 126) and the three probe checkboxes. -/
structure ScanConfig where
  domains : List String
  use_crtsh : Bool
  use_sublister : Bool
  use_brute : Bool

/-- `(1 if use_crtsh else 0) + (1 if use_sublister else 0) +
(1 if use_brute else 0)` (line 172). -/
def enabledCount (cfg : ScanConfig) : Nat :=
  (if cfg.use_crtsh then 1 else 0) + (if cfg.use_sublister then 1 else 0) +
    (if cfg.use_brute then 1 else 0)

/-- The `(label, domain)` pairs of the task list, in submission order
(domain-major, probe order crtsh, sublister, brute; lines 195-204). -/
def taskList (cfg : ScanConfig) : List (String × String) :=
  cfg.domains.flatMap (fun d =>
    (if cfg.use_crtsh then [("crtsh", d)] else []) ++
    (if cfg.use_sublister then [("sublister", d)] else []) ++
    (if cfg.use_brute then [("brute", d)] else []))

/-- The mutable state the scan block touches: the session result set and
log, the `done` counter, `total_tasks`, and the `futures` local of the
abandoned first submission block. -/
structure ScanState where
  results : Finset String
  logs : List LogMsg
  done : Nat
  total_tasks : Nat
  futures : List (Except String (List String))

/-- The body of `for label, domain, fut in tasks` (lines 208-224):
`fut.result()` either raises (oracle `Except.error`) -- logging an ERROR
line, then falling through with `result = []` to the zero line -- or
returns a list, which is merged into the result set with the count of
newly added hostnames logged; `done` is incremented either way. -/
def taskStep (outcome : String → String → Except String (List String))
    (st : ScanState) (t : String × String) : ScanState :=
  match outcome t.1 t.2 with
  | Except.error e =>
    { st with
      logs := st.logs ++ [LogMsg.taskError t.1 t.2 e, LogMsg.taskZero t.1 t.2],
      done := st.done + 1 }
  | Except.ok result =>
    if result = [] then
      { st with logs := st.logs ++ [LogMsg.taskZero t.1 t.2], done := st.done + 1 }
    else
      let added_before := st.results.card
      let newResults := st.results ∪ result.toFinset
      let added_after := newResults.card
      { st with
        results := newResults,
        logs := st.logs ++ [LogMsg.taskNew t.1 t.2 (added_after - added_before)],
        done := st.done + 1 }

/-- State after lines 170-175: results and logs reset, `total_tasks`
computed, `completed = 0`, and `log("Scan started")` appended. -/
def startBlockState (cfg : ScanConfig) : ScanState :=
  { results := ∅
    logs := [LogMsg.started]
    done := 0
    total_tasks := cfg.domains.length * enabledCount cfg
    futures := [] }

/-- The futures list built by the abandoned first submission block
(lines 176-185): `executor.submit(("crtsh", domain), get_subdomains_crtsh,
domain)` passes a tuple as the callable, so each worker raises a
TypeError that is stored in the future; the futures are never awaited. -/
def firstBlockFutures (cfg : ScanConfig) :
    List (Except String (List String)) :=
  (taskList cfg).map (fun _ =>
    Except.error "TypeError: tuple object is not callable")

/-- The corrected scheduling block (lines 189-226): reset the logs and
results again, rebuild the task list counting `total_tasks`, wait on
each task in submission order, and log `Scan completed`. -/
def correctedBlock (outcome : String → String → Except String (List String))
    (cfg : ScanConfig) (st : ScanState) : ScanState :=
  let tasks := taskList cfg
  let st0 := { st with
    logs := ([] : List LogMsg), results := (∅ : Finset String),
    total_tasks := tasks.length, done := 0 }
  let st1 := tasks.foldl (taskStep outcome) st0
  { st1 with logs := st1.logs ++ [LogMsg.completed] }

/-- The whole scan block as written (lines 170-226): start block, the
abandoned first submission block, then the corrected block. -/
def runScanFull (cfg : ScanConfig)
    (outcome : String → String → Except String (List String)) : ScanState :=
  correctedBlock outcome cfg
    { startBlockState cfg with futures := firstBlockFutures cfg }

/-- The scan block with the abandoned first submission block deleted. -/
def runScanDeleted (cfg : ScanConfig)
    (outcome : String → String → Except String (List String)) : ScanState :=
  correctedBlock outcome cfg (startBlockState cfg)

/-- The scan observables: final result set, log sequence, progress
counter. -/
def obs (st : ScanState) : Finset String × List LogMsg × Nat :=
  (st.results, st.logs, st.done)

/-- The `run_button` handler (lines 166-227): reject an empty domain
list with a sidebar error (`none`), otherwise run the scan. -/
def run_button (cfg : ScanConfig)
    (outcome : String → String → Except String (List String)) :
    Option ScanState :=
  if cfg.domains = [] then none else some (runScanFull cfg outcome)

/-- The log entries a single task contributes, as a relation between the
task and its entry list: a failed task contributes an ERROR line and a
zero line, an empty result a zero line, a non-empty result one count
line. -/
def taskShape (outcome : String → String → Except String (List String))
    (t : String × String) (es : List LogMsg) : Prop :=
  match outcome t.1 t.2 with
  | Except.error e =>
    es = [LogMsg.taskError t.1 t.2 e, LogMsg.taskZero t.1 t.2]
  | Except.ok [] => es = [LogMsg.taskZero t.1 t.2]
  | Except.ok (_ :: _) => ∃ n, es = [LogMsg.taskNew t.1 t.2 n]

/-- Concrete scan input used by the log-claim counterexample: one
domain, brute force only. -/
def cexCfg : ScanConfig := ⟨["example.com"], false, false, true⟩

/-- Concrete task outcome used by the log-claim counterexample: the
task raised (e.g. a PermissionError escaping brute_force_subdomains). -/
def cexOutcome : String → String → Except String (List String) :=
  fun _ _ => Except.error "PermissionError"

/-- Concrete scan input used by witnesses: one domain, crt.sh only. -/
def witCfg : ScanConfig := ⟨["example.com"], true, false, false⟩

/-- Concrete task outcome used by witnesses: an empty result. -/
def witOutcome : String → String → Except String (List String) :=
  fun _ _ => Except.ok []

/-- Concrete external-tool environment with the script absent. -/
def witEnv : SublisterEnv := ⟨false, none, none⟩

/-! ## Membership lemmas for the probe loops -/

theorem bruteStep_mem (d : String) (resolve : String → Bool)
    (acc : List String) (l x : String) :
    x ∈ bruteStep d resolve acc l ↔
      x ∈ acc ∨ (pyStrip l ≠ "" ∧ x = pyStrip l ++ "." ++ d ∧
        resolve x = true) := by
  unfold bruteStep
  by_cases h1 : pyStrip l = ""
  · simp [h1]
  · by_cases h2 : resolve (pyStrip l ++ "." ++ d) = true
    · rw [if_neg h1, if_pos h2]
      simp only [List.mem_append, List.mem_singleton, ne_eq]
      constructor
      · rintro (hx | rfl)
        · exact Or.inl hx
        · exact Or.inr ⟨h1, rfl, h2⟩
      · rintro (hx | ⟨h3, rfl, h4⟩)
        · exact Or.inl hx
        · exact Or.inr rfl
    · simp only [if_neg h1, if_neg h2]
      constructor
      · exact fun hx => Or.inl hx
      · rintro (hx | ⟨h3, rfl, h4⟩)
        · exact hx
        · exact absurd h4 h2

theorem bruteSweep_foldl_mem (d : String) (resolve : String → Bool)
    (lines : List String) :
    ∀ (acc : List String) (x : String),
      x ∈ lines.foldl (bruteStep d resolve) acc ↔
        x ∈ acc ∨ ∃ line, line ∈ lines ∧ pyStrip line ≠ "" ∧
          x = pyStrip line ++ "." ++ d ∧ resolve x = true := by
  induction lines with
  | nil => intro acc x; simp
  | cons l ls ih =>
    intro acc x
    rw [List.foldl_cons, ih, bruteStep_mem]
    simp only [List.mem_cons]
    constructor
    · rintro ((hx | hl) | ⟨line, hline, h⟩)
      · exact Or.inl hx
      · exact Or.inr ⟨l, Or.inl rfl, hl⟩
      · exact Or.inr ⟨line, Or.inr hline, h⟩
    · rintro (hx | ⟨line, (rfl | hline), h⟩)
      · exact Or.inl (Or.inl hx)
      · exact Or.inl (Or.inr h)
      · exact Or.inr ⟨line, hline, h⟩

theorem bruteSweep_mem (d : String) (resolve : String → Bool)
    (lines : List String) (x : String) :
    x ∈ bruteSweep d lines resolve ↔
      ∃ line, line ∈ lines ∧ pyStrip line ≠ "" ∧
        x = pyStrip line ++ "." ++ d ∧ resolve x = true := by
  rw [bruteSweep, bruteSweep_foldl_mem]
  simp

theorem crtshAddName_mem (rs : Finset String) (n x : String) :
    x ∈ crtshAddName rs n ↔ x ∈ rs ∨ (pyStrip n ≠ "" ∧ x = pyStrip n) := by
  unfold crtshAddName
  by_cases h : pyStrip n = ""
  · simp [h]
  · simp only [if_neg h, Finset.mem_insert, ne_eq]
    tauto

theorem crtshAddEntry_foldl_mem (pieces : List String) :
    ∀ (rs : Finset String) (x : String),
      x ∈ pieces.foldl crtshAddName rs ↔
        x ∈ rs ∨ ∃ p, p ∈ pieces ∧ pyStrip p ≠ "" ∧ x = pyStrip p := by
  induction pieces with
  | nil => intro rs x; simp
  | cons p ps ih =>
    intro rs x
    rw [List.foldl_cons, ih, crtshAddName_mem]
    constructor
    · rintro ((hx | hp) | ⟨q, hq, h⟩)
      · exact Or.inl hx
      · exact Or.inr ⟨p, List.mem_cons_self p ps, hp⟩
      · exact Or.inr ⟨q, List.mem_cons_of_mem p hq, h⟩
    · rintro (hx | ⟨q, hq, h⟩)
      · exact Or.inl (Or.inl hx)
      · rcases List.mem_cons.mp hq with rfl | hq2
        · exact Or.inl (Or.inr h)
        · exact Or.inr ⟨q, hq2, h⟩

theorem crtshNames_foldl_mem (entries : List (Option String)) :
    ∀ (acc : Finset String) (x : String),
      x ∈ entries.foldl crtshAddEntry acc ↔
        x ∈ acc ∨ ∃ e, e ∈ entries ∧ ∃ p, p ∈ pySplit '\n' (e.getD "") ∧
          pyStrip p ≠ "" ∧ x = pyStrip p := by
  induction entries with
  | nil => intro acc x; simp
  | cons e es ih =>
    intro acc x
    rw [List.foldl_cons, ih]
    rw [show (crtshAddEntry acc e) = (pySplit '\n' (e.getD "")).foldl crtshAddName acc from rfl,
      crtshAddEntry_foldl_mem]
    constructor
    · rintro ((hx | ⟨p, hp, h⟩) | ⟨f, hf, hrest⟩)
      · exact Or.inl hx
      · exact Or.inr ⟨e, List.mem_cons_self e es, p, hp, h⟩
      · exact Or.inr ⟨f, List.mem_cons_of_mem e hf, hrest⟩
    · rintro (hx | ⟨f, hf, hrest⟩)
      · exact Or.inl (Or.inl hx)
      · rcases List.mem_cons.mp hf with rfl | hf2
        · exact Or.inl (Or.inr hrest)
        · exact Or.inr ⟨f, hf2, hrest⟩

theorem crtshNames_mem (entries : List (Option String)) (x : String) :
    x ∈ crtshNames entries ↔
      ∃ e, e ∈ entries ∧ ∃ p, p ∈ pySplit '\n' (e.getD "") ∧
        pyStrip p ≠ "" ∧ x = pyStrip p := by
  rw [crtshNames, crtshNames_foldl_mem]
  simp

/-! ## Round-trip lemmas for the csv export -/

theorem csvScan_start_quote (acc : List Char) (rest : List Char) :
    csvScan CsvSt.start acc ('"' :: rest) = csvScan CsvSt.inq acc rest := rfl

theorem csvScan_start_nl (acc : List Char) (rest : List Char) :
    csvScan CsvSt.start acc ('\n' :: rest) =
      String.mk acc.reverse :: csvScan CsvSt.start [] rest := rfl

theorem csvScan_start_cons (c : Char) (acc : List Char) (rest : List Char)
    (h1 : c ≠ '"') (h2 : c ≠ '\n') :
    csvScan CsvSt.start acc (c :: rest) = csvScan CsvSt.unq (c :: acc) rest := by
  simp [csvScan, h1, h2]

theorem csvScan_unq_nl (acc : List Char) (rest : List Char) :
    csvScan CsvSt.unq acc ('\n' :: rest) =
      String.mk acc.reverse :: csvScan CsvSt.start [] rest := rfl

theorem csvScan_unq_cons (c : Char) (acc : List Char) (rest : List Char)
    (hc : c ≠ '\n') :
    csvScan CsvSt.unq acc (c :: rest) = csvScan CsvSt.unq (c :: acc) rest := by
  simp [csvScan, hc]

theorem csvScan_inq_quote (acc : List Char) (rest : List Char) :
    csvScan CsvSt.inq acc ('"' :: rest) = csvScan CsvSt.afterq acc rest := rfl

theorem csvScan_inq_cons (c : Char) (acc : List Char) (rest : List Char)
    (hc : c ≠ '"') :
    csvScan CsvSt.inq acc (c :: rest) = csvScan CsvSt.inq (c :: acc) rest := by
  simp [csvScan, hc]

theorem csvScan_afterq_quote (acc : List Char) (rest : List Char) :
    csvScan CsvSt.afterq acc ('"' :: rest) =
      csvScan CsvSt.inq ('"' :: acc) rest := rfl

theorem csvScan_afterq_nl (acc : List Char) (rest : List Char) :
    csvScan CsvSt.afterq acc ('\n' :: rest) =
      String.mk acc.reverse :: csvScan CsvSt.start [] rest := rfl

theorem csvScan_unq (rest : List Char) (l : List Char)
    (hl : ∀ c ∈ l, c ≠ '\n') :
    ∀ acc, csvScan CsvSt.unq acc (l ++ '\n' :: rest) =
      String.mk (acc.reverse ++ l) :: csvScan CsvSt.start [] rest := by
  induction l with
  | nil => intro acc; rw [List.nil_append, csvScan_unq_nl]; simp
  | cons c l2 ih =>
    intro acc
    have hc : c ≠ '\n' := hl c (List.mem_cons_self c l2)
    rw [List.cons_append, csvScan_unq_cons c acc _ hc,
      ih (fun b hb => hl b (List.mem_cons_of_mem c hb)) (c :: acc)]
    simp

theorem csvScan_inq (rest : List Char) (l : List Char) :
    ∀ acc, csvScan CsvSt.inq acc (csvEscapeQuotes l ++ '"' :: '\n' :: rest) =
      String.mk (acc.reverse ++ l) :: csvScan CsvSt.start [] rest := by
  induction l with
  | nil =>
    intro acc
    rw [show csvEscapeQuotes [] = [] from rfl, List.nil_append,
      csvScan_inq_quote, csvScan_afterq_nl]
    simp
  | cons c l2 ih =>
    intro acc
    by_cases hc : c = '"'
    · subst hc
      rw [show csvEscapeQuotes ('"' :: l2) = '"' :: '"' :: csvEscapeQuotes l2
          from by simp [csvEscapeQuotes],
        List.cons_append, List.cons_append, csvScan_inq_quote,
        csvScan_afterq_quote, ih ('"' :: acc)]
      simp
    · rw [show csvEscapeQuotes (c :: l2) = c :: csvEscapeQuotes l2
          from by simp [csvEscapeQuotes, hc],
        List.cons_append, csvScan_inq_cons c acc _ hc, ih (c :: acc)]
      simp

theorem csvField_record (s : String) (rest : List Char) :
    csvScan CsvSt.start [] ((csvField s).data ++ '\n' :: rest) =
      s :: csvScan CsvSt.start [] rest := by
  by_cases hq : csvNeedsQuote s = true
  · rw [show csvField s = String.mk ('"' :: (csvEscapeQuotes s.data ++ ['"']))
      from if_pos hq]
    rw [show (String.mk ('"' :: (csvEscapeQuotes s.data ++ ['"']))).data
      = '"' :: (csvEscapeQuotes s.data ++ ['"']) from rfl]
    rw [List.cons_append, csvScan_start_quote, List.append_assoc,
      List.singleton_append, csvScan_inq rest s.data []]
    simp
  · have hnone : ∀ c ∈ s.data, ¬(c = ',' ∨ c = '"' ∨ c = '\n' ∨ c = '\r') := by
      intro c hc hor
      apply hq
      unfold csvNeedsQuote
      rw [List.any_eq_true]
      refine ⟨c, hc, ?_⟩
      rcases hor with h | h | h | h <;> simp [h]
    rw [show csvField s = s from if_neg hq]
    cases s with
    | mk data =>
      cases data with
      | nil =>
        rw [show (String.mk []).data = ([] : List Char) from rfl,
          List.nil_append, csvScan_start_nl]
        simp
      | cons c l2 =>
        have hc2 : ¬(c = ',' ∨ c = '"' ∨ c = '\n' ∨ c = '\r') :=
          hnone c (List.mem_cons_self c l2)
        have hcq : c ≠ '"' := fun h => hc2 (Or.inr (Or.inl h))
        have hcn : c ≠ '\n' := fun h => hc2 (Or.inr (Or.inr (Or.inl h)))
        rw [show (String.mk (c :: l2)).data = c :: l2 from rfl,
          List.cons_append, csvScan_start_cons c [] _ hcq hcn,
          csvScan_unq rest l2
            (fun b hb => fun h =>
              hnone b (List.mem_cons_of_mem c hb) (Or.inr (Or.inr (Or.inl h))))
            [c]]
        simp

theorem csvBody_scan (l : List String) :
    csvScan CsvSt.start [] (csvBody l).data = l := by
  induction l with
  | nil => rfl
  | cons h t ih =>
    have hdata : (csvBody (h :: t)).data =
        (csvField h).data ++ '\n' :: (csvBody t).data := by
      show (csvField h ++ "\n" ++ csvBody t).data = _
      rw [String.data_append, String.data_append]
      simp
    rw [hdata, csvField_record, ih]

/-! ## Engine lemmas -/

theorem taskStep_done (o : String → String → Except String (List String))
    (st : ScanState) (t : String × String) :
    (taskStep o st t).done = st.done + 1 := by
  unfold taskStep
  cases o t.1 t.2 with
  | error e => rfl
  | ok result =>
    cases result with
    | nil => rfl
    | cons a as => rfl

theorem taskStep_futures_set (o : String → String → Except String (List String))
    (st : ScanState) (t : String × String)
    (f : List (Except String (List String))) :
    taskStep o { st with futures := f } t =
      { taskStep o st t with futures := f } := by
  unfold taskStep
  cases o t.1 t.2 with
  | error e => rfl
  | ok result =>
    cases result with
    | nil => rfl
    | cons a as => rfl

theorem foldl_taskStep_done (o : String → String → Except String (List String))
    (ts : List (String × String)) :
    ∀ st : ScanState, (ts.foldl (taskStep o) st).done = st.done + ts.length := by
  induction ts with
  | nil => intro st; simp
  | cons t ts ih =>
    intro st
    rw [List.foldl_cons, ih, taskStep_done, List.length_cons]
    omega

theorem foldl_taskStep_futures_set
    (o : String → String → Except String (List String))
    (ts : List (String × String)) :
    ∀ (st : ScanState) (f : List (Except String (List String))),
      ts.foldl (taskStep o) { st with futures := f } =
        { ts.foldl (taskStep o) st with futures := f } := by
  induction ts with
  | nil => intro st f; rfl
  | cons t ts ih =>
    intro st f
    rw [List.foldl_cons, taskStep_futures_set, ih, List.foldl_cons]

theorem taskStep_logs (o : String → String → Except String (List String))
    (st : ScanState) (t : String × String) :
    ∃ es, (taskStep o st t).logs = st.logs ++ es ∧ taskShape o t es := by
  unfold taskStep taskShape
  cases o t.1 t.2 with
  | error e =>
    exact ⟨[LogMsg.taskError t.1 t.2 e, LogMsg.taskZero t.1 t.2], rfl, rfl⟩
  | ok result =>
    cases result with
    | nil => exact ⟨[LogMsg.taskZero t.1 t.2], rfl, rfl⟩
    | cons a as =>
      exact ⟨[LogMsg.taskNew t.1 t.2
        ((st.results ∪ (a :: as).toFinset).card - st.results.card)], rfl,
        ⟨_, rfl⟩⟩

theorem foldl_taskStep_logs (o : String → String → Except String (List String))
    (ts : List (String × String)) :
    ∀ st : ScanState, ∃ ess : List (List LogMsg),
      (ts.foldl (taskStep o) st).logs = st.logs ++ ess.flatten ∧
        List.Forall₂ (taskShape o) ts ess := by
  induction ts with
  | nil => intro st; exact ⟨[], by simp, List.Forall₂.nil⟩
  | cons t ts ih =>
    intro st
    obtain ⟨es, hes, hshape⟩ := taskStep_logs o st t
    obtain ⟨ess, hess, hall⟩ := ih (taskStep o st t)
    refine ⟨es :: ess, ?_, List.Forall₂.cons hshape hall⟩
    rw [List.foldl_cons, hess, hes, List.flatten_cons, List.append_assoc]

theorem taskShape_marker_free
    (o : String → String → Except String (List String))
    (t : String × String) (es : List LogMsg) (h : taskShape o t es) :
    ∀ e ∈ es, e ≠ LogMsg.completed ∧ e ≠ LogMsg.started := by
  revert h
  unfold taskShape
  cases o t.1 t.2 with
  | error e2 =>
    rintro rfl e he
    rcases List.mem_cons.mp he with rfl | he2
    · exact ⟨by simp, by simp⟩
    · rcases List.mem_cons.mp he2 with rfl | he3
      · exact ⟨by simp, by simp⟩
      · simp at he3
  | ok result =>
    cases result with
    | nil =>
      rintro rfl e he
      rcases List.mem_cons.mp he with rfl | he2
      · exact ⟨by simp, by simp⟩
      · simp at he2
    | cons a as =>
      rintro ⟨n, rfl⟩ e he
      rcases List.mem_cons.mp he with rfl | he2
      · exact ⟨by simp, by simp⟩
      · simp at he2

theorem forall₂_marker_free
    (o : String → String → Except String (List String))
    (ts : List (String × String)) (ess : List (List LogMsg))
    (h : List.Forall₂ (taskShape o) ts ess) :
    ∀ e ∈ ess.flatten, e ≠ LogMsg.completed ∧ e ≠ LogMsg.started := by
  induction h with
  | nil => intro e he; simp at he
  | @cons t es ts2 ess2 hshape htail ih =>
    intro e he
    rw [List.flatten_cons] at he
    rcases List.mem_append.mp he with h1 | h2
    · exact taskShape_marker_free o t es hshape e h1
    · exact ih e h2

theorem perDomain_length (cfg : ScanConfig) (d : String) :
    ((if cfg.use_crtsh then [("crtsh", d)] else []) ++
      (if cfg.use_sublister then [("sublister", d)] else []) ++
      (if cfg.use_brute then [("brute", d)] else [])).length
      = enabledCount cfg := by
  rcases cfg with ⟨ds, c, s, b⟩
  cases c <;> cases s <;> cases b <;> simp [enabledCount]

theorem taskList_length (cfg : ScanConfig) :
    (taskList cfg).length = cfg.domains.length * enabledCount cfg := by
  unfold taskList
  induction cfg.domains with
  | nil => simp
  | cons d ds ih =>
    rw [List.flatMap_cons, List.length_append, ih, perDomain_length,
      List.length_cons]
    ring

/-! ## Scan-level helper lemmas -/

theorem correctedBlock_done (o : String → String → Except String (List String))
    (cfg : ScanConfig) (st : ScanState) :
    (correctedBlock o cfg st).done = (taskList cfg).length := by
  unfold correctedBlock
  dsimp only
  rw [foldl_taskStep_done]
  simp

theorem correctedBlock_futures_set
    (o : String → String → Except String (List String))
    (cfg : ScanConfig) (st : ScanState)
    (f : List (Except String (List String))) :
    correctedBlock o cfg { st with futures := f } =
      { correctedBlock o cfg st with futures := f } := by
  unfold correctedBlock
  dsimp only
  rw [show (ScanState.mk ∅ [] 0 (taskList cfg).length f)
    = { ScanState.mk ∅ [] 0 (taskList cfg).length st.futures with futures := f }
    from rfl]
  rw [foldl_taskStep_futures_set]

theorem correctedBlock_logs (o : String → String → Except String (List String))
    (cfg : ScanConfig) (st : ScanState) :
    ∃ ess : List (List LogMsg),
      (correctedBlock o cfg st).logs = ess.flatten ++ [LogMsg.completed]
      ∧ List.Forall₂ (taskShape o) (taskList cfg) ess := by
  unfold correctedBlock
  dsimp only
  obtain ⟨ess, hlogs, hall⟩ := foldl_taskStep_logs o (taskList cfg)
    (ScanState.mk ∅ [] 0 (taskList cfg).length st.futures)
  refine ⟨ess, ?_, hall⟩
  rw [hlogs]
  simp

/-! ## Claims -/

/-- Claim C1, counterexample: at a concrete scan (one domain, brute force
only, the task raising PermissionError) the final log is exactly an ERROR
entry plus a zero entry for the single failed task followed by the
completion marker; in particular the scan-started entry is NOT present in
the final log (the corrected scheduling block resets the log after it was
written) and the failed task contributed two entries, not one -- refuting
the claim as stated. -/
theorem claim_C1_counterexample :
    (runScanFull cexCfg cexOutcome).logs =
      [LogMsg.taskError "brute" "example.com" "PermissionError",
        LogMsg.taskZero "brute" "example.com", LogMsg.completed]
    ∧ LogMsg.started ∉ (runScanFull cexCfg cexOutcome).logs := by
  decide

/-- Claim C1 (amended): for every scan invocation, the final log consists
of, in task submission order, the entries contributed by each task -- one
count entry for a task that completed with a non-empty result, one zero
entry for a task that completed empty, and exactly two entries (an ERROR
entry then a zero entry) for a failed task -- followed by exactly one
scan-completed entry; the scan-started entry is not present in the final
log, because the corrected scheduling block resets the log after it is
written. -/
theorem claim_C1_log_structure (cfg : ScanConfig)
    (outcome : String → String → Except String (List String)) :
    ∃ ess : List (List LogMsg),
      (runScanFull cfg outcome).logs = ess.flatten ++ [LogMsg.completed]
      ∧ List.Forall₂ (taskShape outcome) (taskList cfg) ess
      ∧ ((runScanFull cfg outcome).logs).count LogMsg.completed = 1
      ∧ LogMsg.started ∉ (runScanFull cfg outcome).logs := by
  unfold runScanFull
  obtain ⟨ess, hlogs, hall⟩ := correctedBlock_logs outcome cfg
    { startBlockState cfg with futures := firstBlockFutures cfg }
  have hfree := forall₂_marker_free outcome (taskList cfg) ess hall
  refine ⟨ess, hlogs, hall, ?_, ?_⟩
  · rw [hlogs, List.count_append]
    have h0 : ess.flatten.count LogMsg.completed = 0 := by
      rw [List.count_eq_zero]
      intro hmem
      exact (hfree LogMsg.completed hmem).1 rfl
    rw [h0]
    simp
  · rw [hlogs]
    intro hmem
    rcases List.mem_append.mp hmem with h1 | h2
    · exact (hfree LogMsg.started h1).2 rfl
    · simp at h2

/-- Claim C2 (the code contradicts it): a missing wordlist is swallowed by
the bare pass in the FileNotFoundError handler, so brute_force_subdomains
returns an ordinary empty success, bit-for-bit the same value an
all-failing sweep over a readable wordlist returns -- no ConfigError, no
user-visible warning, despite the inline comment claiming the UI will
show a message. -/
theorem claim_C2_missing_wordlist_silent :
    brute_force_subdomains "example.com" ReadOutcome.notFound (fun _ => false)
      = Except.ok []
    ∧ brute_force_subdomains "example.com" (ReadOutcome.ok ["www"])
        (fun _ => false) = Except.ok [] :=
  ⟨rfl, rfl⟩

/-- Claim C3: for a readable wordlist the brute-force probe returns
exactly the hostnames `strip(line) ++ "." ++ domain` for the non-blank
lines whose A-record resolution succeeded; every failing label (for any
reason) is skipped without stopping the sweep, no successful label is
omitted and no failed label is included. -/
theorem claim_C3_brute_sweep_exact (d : String) (lines : List String)
    (resolve : String → Bool) (full : String) :
    brute_force_subdomains d (ReadOutcome.ok lines) resolve =
      Except.ok (bruteSweep d lines resolve)
    ∧ (full ∈ bruteSweep d lines resolve ↔
        ∃ line, line ∈ lines ∧ pyStrip line ≠ "" ∧
          full = pyStrip line ++ "." ++ d ∧ resolve full = true) :=
  ⟨rfl, bruteSweep_mem d resolve lines full⟩

/-- Claim C4: whenever the run button actually starts a scan, the final
progress counter equals the number of domains times the number of enabled
probes, however the individual tasks ended. -/
theorem claim_C4_progress_total (cfg : ScanConfig)
    (outcome : String → String → Except String (List String))
    (st : ScanState) (h : run_button cfg outcome = some st) :
    st.done = cfg.domains.length * enabledCount cfg := by
  unfold run_button at h
  by_cases hd : cfg.domains = []
  · rw [if_pos hd] at h
    exact Option.noConfusion h
  · rw [if_neg hd] at h
    have hst : st = runScanFull cfg outcome := (Option.some.inj h).symm
    subst hst
    unfold runScanFull
    rw [correctedBlock_done, taskList_length]

/-- Witness for claim C4 at a concrete scan input. -/
theorem claim_C4_witness :
    run_button witCfg witOutcome = some (runScanFull witCfg witOutcome)
    ∧ (runScanFull witCfg witOutcome).done
        = witCfg.domains.length * enabledCount witCfg :=
  ⟨rfl, claim_C4_progress_total witCfg witOutcome
    (runScanFull witCfg witOutcome) rfl⟩

/-- Claim C5: on a successful response the CT probe returns exactly the
stripped, non-blank newline-separated pieces of each name_value
fields, deduplicated (the result is a set); in particular the mocked
two-entry response yields exactly the three expected hostnames. -/
theorem claim_C5_crtsh_split_trim_dedup :
    (∀ (entries : List (Option String)) (x : String),
      x ∈ get_subdomains_crtsh (CtFetch.resp 200 (some entries)) ↔
        ∃ e, e ∈ entries ∧ ∃ p, p ∈ pySplit '\n' (e.getD "") ∧
          pyStrip p ≠ "" ∧ x = pyStrip p)
    ∧ get_subdomains_crtsh (CtFetch.resp 200
        (some [some "a.example.com\nb.example.com", some "c.example.com"]))
      = {"a.example.com", "b.example.com", "c.example.com"} := by
  constructor
  · intro entries x
    rw [show get_subdomains_crtsh (CtFetch.resp 200 (some entries))
      = crtshNames entries from rfl]
    exact crtshNames_mem entries x
  · decide

/-- Claim C6: the CT probe never raises: on a raised transport error, a
non-200 status, or a JSON parse failure it returns the empty set (the
embedding is a total function into Finset String, so no exception can
propagate). -/
theorem claim_C6_crtsh_never_raises (f : CtFetch) (h : ctFailed f) :
    get_subdomains_crtsh f = ∅ := by
  cases f with
  | fail => rfl
  | resp status body =>
    unfold get_subdomains_crtsh
    dsimp only
    rcases (show status ≠ 200 ∨ body = none from h) with h1 | h2
    · rw [if_pos h1]
    · subst h2
      by_cases hs : status ≠ 200
      · rw [if_pos hs]
      · rw [if_neg hs]

/-- Witness for claim C6 at a concrete failed fetch. -/
theorem claim_C6_witness :
    ctFailed CtFetch.fail ∧ get_subdomains_crtsh CtFetch.fail = ∅ :=
  ⟨trivial, claim_C6_crtsh_never_raises CtFetch.fail trivial⟩

/-- Claim C7: when the Sublist3r script is not present, the external-tool
probe returns the empty list immediately, spawning no subprocess and
raising no error (the embedding is total, and the spawned flag is false). -/
theorem claim_C7_sublister_missing_script (env : SublisterEnv)
    (h : env.scriptExists = false) :
    get_subdomains_sublister env = ⟨[], false⟩ := by
  unfold get_subdomains_sublister
  rw [if_pos h]

/-- Witness for claim C7 at a concrete environment. -/
theorem claim_C7_witness :
    witEnv.scriptExists = false
    ∧ get_subdomains_sublister witEnv = ⟨[], false⟩ :=
  ⟨rfl, claim_C7_sublister_missing_script witEnv rfl⟩

/-- Claim C8: csv export round-trip: writing any finite hostname list
with the exporter and reading the file back yields exactly the same
hostnames, hence the same set. -/
theorem claim_C8_csv_roundtrip (hostnames : List String) :
    read_csv (to_csv hostnames) = hostnames
    ∧ (read_csv (to_csv hostnames)).toFinset = hostnames.toFinset := by
  have h : read_csv (to_csv hostnames) = hostnames := by
    unfold read_csv to_csv
    have hdata : ("Subdomain" ++ "\n" ++ csvBody hostnames).data
        = (csvField "Subdomain").data ++ '\n' :: (csvBody hostnames).data := by
      rw [String.data_append, String.data_append,
        show csvField "Subdomain" = "Subdomain" from by decide]
      simp
    rw [hdata, csvField_record, csvBody_scan]
    rfl
  exact ⟨h, by rw [h]⟩

/-- Claim C9: the scan observables (final result set, log sequence and
progress counter) of the scan block as written equal those of the block
with the abandoned first submission loop deleted: the mislabeled futures
are never awaited and contribute nothing. -/
theorem claim_C9_first_block_dead (cfg : ScanConfig)
    (outcome : String → String → Except String (List String)) :
    obs (runScanFull cfg outcome) = obs (runScanDeleted cfg outcome) := by
  unfold runScanFull runScanDeleted
  rw [show ({ startBlockState cfg with futures := firstBlockFutures cfg }
      : ScanState)
    = { startBlockState cfg with futures := firstBlockFutures cfg } from rfl]
  rw [show startBlockState cfg
    = { startBlockState cfg with futures := (startBlockState cfg).futures }
    from rfl]
  rw [correctedBlock_futures_set, correctedBlock_futures_set]
  rfl

/-- Claim C10: every hostname the brute-force probe returns for a
readable wordlist has the form `strip(line) ++ "." ++ domain` for some
non-blank line of the wordlist. -/
theorem claim_C10_brute_subdomain_form (d : String) (lines : List String)
    (resolve : String → Bool) (res : List String) (x : String)
    (h1 : brute_force_subdomains d (ReadOutcome.ok lines) resolve
      = Except.ok res)
    (h2 : x ∈ res) :
    ∃ line, line ∈ lines ∧ pyStrip line ≠ "" ∧
      x = pyStrip line ++ "." ++ d := by
  have h3 : bruteSweep d lines resolve = res :=
    Except.ok.inj h1
  obtain ⟨line, hline, hs, heq, hres⟩ :=
    (bruteSweep_mem d resolve lines x).mp (h3 ▸ h2)
  exact ⟨line, hline, hs, heq⟩

/-- Witness for claim C10 at a concrete wordlist and resolver. -/
theorem claim_C10_witness :
    brute_force_subdomains "example.com" (ReadOutcome.ok ["www"])
        (fun _ => true) = Except.ok ["www.example.com"]
    ∧ ("www.example.com" : String) ∈ ["www.example.com"]
    ∧ ∃ line, line ∈ ["www"] ∧ pyStrip line ≠ "" ∧
        "www.example.com" = pyStrip line ++ "." ++ "example.com" :=
  ⟨rfl, by simp, claim_C10_brute_subdomain_form "example.com" ["www"]
    (fun _ => true) ["www.example.com"] "www.example.com" rfl (by simp)⟩

end SubdomainTool
